import Mathlib

/-!
# Yappy Bird: the frame callback, the obstacles and the round lifecycle

A shallow embedding of `script.js`.  The sketch's JavaScript numbers are
modelled as exact rationals (`ℚ`), its counters (`score`, `highScore`,
`frameCount`, `startDelay`) as natural numbers.  The globals of the sketch
become the fields of `Game`; everything the sketch reads from its host (the
microphone sample, the random draws of a new pipe, the stored high score, the
key that was pressed) is an explicit argument.  Drawing calls (`background`,
`text`, `image`, `rect`, `fill`, ...) do not touch the state and are left out.
-/

namespace YappyBird

/-! ## Constants of the sketch -/

/-- Canvas width, fixed by `createCanvas(800, 600)`. -/
def width : ℚ := 800

/-- Canvas height, fixed by `createCanvas(800, 600)`. -/
def height : ℚ := 600

/-- Global `birdX = 50`; never assigned again. -/
def birdX : ℚ := 50

/-- Global `gravity = 0.2`; never assigned again. -/
def gravity : ℚ := 0.2

/-- Global `groundHeight = 135`; never assigned again. -/
def groundHeight : ℚ := 135

/-! ## The p5.js helpers the sketch calls -/

/-- The p5.js function `constrain(n, low, high)`, which is
`Math.max(Math.min(n, high), low)`. -/
def constrain (n low high : ℚ) : ℚ := max (min n high) low

/-- The p5.js function `map(n, start1, stop1, start2, stop2, withinBounds)`:
the linear re-mapping, constrained to the target range when `withinBounds`
is set (the target range may be given in either order). -/
def map (n start1 stop1 start2 stop2 : ℚ) (withinBounds : Bool) : ℚ :=
  let newval := (n - start1) / (stop1 - start1) * (stop2 - start2) + start2
  if !withinBounds then newval
  else if start2 < stop2 then constrain newval start2 stop2
  else constrain newval stop2 start2

/-- The p5.js function `random(min, max)`, as a function of the raw draw
`r` (a number of `[0, 1)`): `r * (max - min) + min`, the bounds swapped first
when they come reversed. -/
def random (min max r : ℚ) : ℚ :=
  if min > max then r * (min - max) + max else r * (max - min) + min

/-! ## Pipes -/

/-- The fields of a `Pipe` object. -/
structure Pipe where
  spacing : ℚ
  top : ℚ
  bottom : ℚ
  x : ℚ
  w : ℚ
  speed : ℚ
  deriving DecidableEq

/-- The body of the `Pipe` constructor once `spacing` and `top` are drawn. -/
def Pipe.ofGeometry (spacing top : ℚ) : Pipe :=
  { spacing := spacing
    top := top
    bottom := height - groundHeight - (top + spacing)
    x := width
    w := 40
    speed := 3 }

/-- The `Pipe` constructor: `rSpacing` and `rTop` are the raw draws behind its
two calls of `random`. -/
def Pipe.new (rSpacing rTop : ℚ) : Pipe :=
  let spacing := random 150 200 rSpacing
  let top := random 50 (height - groundHeight - spacing - 50) rTop
  Pipe.ofGeometry spacing top

/-- The method `Pipe.update()`; it reads the global `score`. -/
def Pipe.update (p : Pipe) (score : ℕ) : Pipe :=
  let speedMultiplier : ℚ := 1 + (score : ℚ) * 0.01
  let speed := 3 * speedMultiplier
  { p with speed := speed, x := p.x - speed }

/-- The method `Pipe.hits(birdX, birdY)`. -/
def Pipe.hits (p : Pipe) (bx bY : ℚ) : Bool :=
  if bx > p.x ∧ bx < p.x + p.w then
    if bY < p.top ∨ bY > height - groundHeight - p.bottom then true else false
  else false

/-- The method `Pipe.offscreen()`. -/
def Pipe.offscreen (p : Pipe) : Bool := decide (p.x < -p.w)

/-! ## The globals of the sketch -/

/-- The mutable globals of the sketch, the p5 frame counter, the flag that
`loop()` and `noLoop()` switch, and the `highScore` entry of the store. -/
structure Game where
  birdY : ℚ
  birdSpeedY : ℚ
  pipes : List Pipe
  score : ℕ
  highScore : ℕ
  startDelay : ℕ
  gameStarted : Bool
  frameCount : ℕ
  looping : Bool
  stored : Option ℕ
  writes : List ℕ
  deriving DecidableEq

/-- What one call of `draw()` reads from outside: `mic.enabled`,
`mic.getLevel()`, and the two raw draws a `new Pipe()` would consume. -/
structure Input where
  micEnabled : Bool
  micLevel : ℚ
  rSpacing : ℚ
  rTop : ℚ
  deriving DecidableEq

/-- The function `setup()`: `item` is what `getItem("highScore")` returns,
the two draws are those of the first pipe. -/
def setup (item : Option ℕ) (rSpacing rTop : ℚ) : Game :=
  { birdY := height / 2
    birdSpeedY := 0
    pipes := [Pipe.new rSpacing rTop]
    score := 0
    highScore := item.getD 0
    startDelay := 120
    gameStarted := false
    frameCount := 0
    looping := true
    stored := item
    writes := [] }

/-- The function `endGame()`: `noLoop()`, then the high-score update with its
`storeItem` call (recorded in `writes`). -/
def endGame (g : Game) : Game :=
  let g1 := { g with looping := false }
  if g1.score > g1.highScore then
    { g1 with highScore := g1.score, stored := some g1.score, writes := g1.score :: g1.writes }
  else g1

/-- The function `resetGame()`. -/
def resetGame (g : Game) : Game :=
  { g with
    score := 0
    pipes := []
    birdY := height / 2
    birdSpeedY := 0
    gameStarted := false
    startDelay := g.frameCount + 120
    looping := true }

/-- The function `keyPressed()`, with the global `key` as argument. -/
def keyPressed (g : Game) (key : Char) : Game :=
  if key = 'R' ∨ key = 'r' then resetGame g else g

/-- How the obstacle loop of `draw()` leaves: by running to its end, or through
the `return` after a collision. Both carry the pipe list and the score. -/
inductive LoopResult where
  | done (pipes : List Pipe) (score : ℕ)
  | hit (pipes : List Pipe) (score : ℕ)
  deriving DecidableEq

/-- The obstacle loop `for (let i = pipes.length - 1; i >= 0; i--)` of
`draw()`. The first argument counts the indices still to visit: it is `i + 1`.
Pipes are objects, so `update()` changes the list entry in place; `splice(i, 1)`
is `eraseIdx`. An index outside the list (which the loop never produces) ends
the loop. -/
def pipesLoop (bY : ℚ) : ℕ → List Pipe → ℕ → LoopResult
  | 0, pipes, score => .done pipes score
  | i + 1, pipes, score =>
    match pipes[i]? with
    | none => .done pipes score
    | some p =>
      let p1 := p.update score
      let pipes1 := pipes.set i p1
      if p1.hits birdX bY then .hit pipes1 score
      else if p1.offscreen then pipesLoop bY i (pipes1.eraseIdx i) (score + 1)
      else pipesLoop bY i pipes1 score

/-- The bird's velocity update at the head of a Running frame. -/
def birdVelocity (g : Game) (inp : Input) : ℚ :=
  if inp.micEnabled && decide (inp.micLevel > 0.05) then
    map inp.micLevel 0.02 0.3 (-3) (-8) true
  else g.birdSpeedY + gravity

/-- The function `draw()`, called with `frameCount` already set for the
frame. -/
def draw (g : Game) (inp : Input) : Game :=
  if !g.gameStarted then
    let g1 := { g with birdSpeedY := 0 }
    if g1.frameCount ≥ g1.startDelay then { g1 with gameStarted := true } else g1
  else
    let g1 := { g with birdSpeedY := birdVelocity g inp }
    let g2 := { g1 with birdY := g1.birdY + g1.birdSpeedY }
    if g2.birdY < 0 then endGame g2
    else
      let g3 :=
        if g2.birdY > height - groundHeight - 50 then
          { g2 with birdY := height - groundHeight - 50, birdSpeedY := 0 }
        else g2
      match pipesLoop g3.birdY g3.pipes.length g3.pipes g3.score with
      | .hit pipes score => endGame { g3 with pipes := pipes, score := score }
      | .done pipes score =>
        let g4 := { g3 with pipes := pipes, score := score }
        if g4.frameCount % 100 = 0 then
          { g4 with pipes := g4.pipes ++ [Pipe.new inp.rSpacing inp.rTop] }
        else g4

/-- The p5 animation loop advances `frameCount` before it calls `draw()`. -/
def advance (g : Game) : Game := { g with frameCount := g.frameCount + 1 }

/-- One tick of the p5 animation loop: nothing while `noLoop()` is in force,
otherwise `frameCount` is advanced and `draw()` runs. -/
def frame (g : Game) (inp : Input) : Game :=
  if g.looping then draw (advance g) inp else g

/-! ## Runs of the sketch -/

/-- What can happen to the sketch after `setup()`: an animation tick or a key
press. -/
inductive Event where
  | tick (inp : Input)
  | key (c : Char)

/-- The host's inputs are in range: the microphone level lies in `[0, 1]` and
the raw random draws in `[0, 1)`. -/
def Input.valid (inp : Input) : Prop :=
  0 ≤ inp.micLevel ∧ inp.micLevel ≤ 1 ∧
  0 ≤ inp.rSpacing ∧ inp.rSpacing < 1 ∧ 0 ≤ inp.rTop ∧ inp.rTop < 1

instance (inp : Input) : Decidable inp.valid := by
  unfold Input.valid; infer_instance

/-- Validity of an event: ticks carry valid inputs, any key may be pressed. -/
def Event.valid : Event → Prop
  | .tick inp => inp.valid
  | .key _ => True

instance (e : Event) : Decidable e.valid := by
  cases e <;> unfold Event.valid <;> infer_instance

/-- The effect of one event. -/
def step (g : Game) : Event → Game
  | .tick inp => frame g inp
  | .key c => keyPressed g c

/-- The effect of a sequence of events. -/
def run (g : Game) (es : List Event) : Game := es.foldl step g

/-- The states the sketch can be in: those `setup()` produces and those any
valid event leads to. -/
inductive Reachable : Game → Prop where
  | setup (item : Option ℕ) (rSpacing rTop : ℚ)
      (hs : 0 ≤ rSpacing ∧ rSpacing < 1) (ht : 0 ≤ rTop ∧ rTop < 1) :
      Reachable (setup item rSpacing rTop)
  | step {g : Game} (e : Event) (hg : Reachable g) (he : e.valid) :
      Reachable (step g e)

/-- The frame ended the round: `endGame()` ran, so the loop is halted. -/
def Ended (g : Game) : Prop := g.looping = false

/-! ## Auxiliary definitions for the statements -/

/-- The state `draw()` has built when a Running frame reaches the obstacle
loop: velocity updated, position integrated, floor clamp applied. -/
def afterBird (g : Game) (inp : Input) : Game :=
  if g.birdY + birdVelocity g inp > height - groundHeight - 50 then
    { g with birdSpeedY := 0, birdY := height - groundHeight - 50 }
  else { g with birdSpeedY := birdVelocity g inp, birdY := g.birdY + birdVelocity g inp }

/-- The pipe list an obstacle loop leaves behind. -/
def LoopResult.pipes : LoopResult → List Pipe
  | .done pipes _ => pipes
  | .hit pipes _ => pipes

/-- The obstacle loop of the frame that `draw g inp` runs, when it gets there. -/
def frameLoop (g : Game) (inp : Input) : LoopResult :=
  pipesLoop (afterBird g inp).birdY g.pipes.length g.pipes g.score

/-- A silent frame: microphone on, level 0. The draws give a pipe with
`spacing = 190` and `top = 100`. -/
def quiet : Input := { micEnabled := true, micLevel := 0, rSpacing := 0.8, rTop := 2 / 7 }

/-- A loud frame: microphone on, level 1; same draws as `quiet`. -/
def loud : Input := { micEnabled := true, micLevel := 1, rSpacing := 0.8, rTop := 2 / 7 }

/-- A session of `a` silent ticks, then `m` loud ticks, then `c` silent ticks. -/
def flight (a m c : ℕ) : List Event :=
  List.replicate a (Event.tick quiet) ++ List.replicate m (Event.tick loud) ++
    List.replicate c (Event.tick quiet)

/-- The sketch as `setup()` leaves it with an empty store and the draws of
`quiet` for the first pipe. -/
def start : Game := setup none 0.8 (2 / 7)

/-! ## Basic facts about `draw`, `endGame` and the loop -/

theorem hits_iff (p : Pipe) (bx bY : ℚ) :
    p.hits bx bY = true ↔
      (p.x < bx ∧ bx < p.x + p.w) ∧ (bY < p.top ∨ bY > height - groundHeight - p.bottom) := by
  unfold Pipe.hits
  by_cases h1 : bx > p.x ∧ bx < p.x + p.w
  · by_cases h2 : bY < p.top ∨ bY > height - groundHeight - p.bottom
    · simp [h1, h2]
    · simp [h1, h2]
  · simp [h1]

theorem draw_notStarted (g : Game) (inp : Input) (h : g.gameStarted = false) :
    draw g inp =
      if g.frameCount ≥ g.startDelay then { g with birdSpeedY := 0, gameStarted := true }
      else { g with birdSpeedY := 0 } := by
  simp [draw, h]

theorem draw_ceiling (g : Game) (inp : Input) (h : g.gameStarted = true)
    (hy : g.birdY + birdVelocity g inp < 0) :
    draw g inp =
      endGame { g with birdSpeedY := birdVelocity g inp, birdY := g.birdY + birdVelocity g inp } := by
  simp [draw, h, hy]

theorem draw_running (g : Game) (inp : Input) (h : g.gameStarted = true)
    (hy : ¬ g.birdY + birdVelocity g inp < 0) :
    draw g inp =
      match frameLoop g inp with
      | .hit pipes score => endGame { afterBird g inp with pipes := pipes, score := score }
      | .done pipes score =>
        if g.frameCount % 100 = 0 then
          { afterBird g inp with
            pipes := pipes ++ [Pipe.new inp.rSpacing inp.rTop], score := score }
        else { afterBird g inp with pipes := pipes, score := score } := by
  unfold draw afterBird frameLoop afterBird
  simp only [h, hy]
  by_cases hf : g.birdY + birdVelocity g inp > height - groundHeight - 50
  · simp only [hf, if_true]
    cases pipesLoop (height - groundHeight - 50) g.pipes.length g.pipes g.score <;> rfl
  · simp only [hf, if_false]
    cases pipesLoop (g.birdY + birdVelocity g inp) g.pipes.length g.pipes g.score <;> rfl

@[simp] theorem endGame_looping (g : Game) : (endGame g).looping = false := by
  unfold endGame; dsimp only; split <;> rfl

@[simp] theorem endGame_pipes (g : Game) : (endGame g).pipes = g.pipes := by
  unfold endGame; dsimp only; split <;> rfl

@[simp] theorem endGame_score (g : Game) : (endGame g).score = g.score := by
  unfold endGame; dsimp only; split <;> rfl

@[simp] theorem birdVelocity_advance (g : Game) (inp : Input) :
    birdVelocity (advance g) inp = birdVelocity g inp := rfl

@[simp] theorem advance_birdY (g : Game) : (advance g).birdY = g.birdY := rfl

@[simp] theorem advance_birdSpeedY (g : Game) : (advance g).birdSpeedY = g.birdSpeedY := rfl

@[simp] theorem advance_pipes (g : Game) : (advance g).pipes = g.pipes := rfl

@[simp] theorem advance_score (g : Game) : (advance g).score = g.score := rfl

@[simp] theorem advance_gameStarted (g : Game) : (advance g).gameStarted = g.gameStarted := rfl

@[simp] theorem advance_looping (g : Game) : (advance g).looping = g.looping := rfl

@[simp] theorem advance_startDelay (g : Game) : (advance g).startDelay = g.startDelay := rfl

@[simp] theorem advance_frameCount (g : Game) : (advance g).frameCount = g.frameCount + 1 := rfl

/-! ## The obstacle loop -/

theorem pipesLoop_append (bY : ℚ) (l : List Pipe) :
    ∀ (suf : List Pipe) (sc : ℕ) (res : List Pipe) (sc' : ℕ),
      pipesLoop bY l.length (l ++ suf) sc = .done res sc' →
      ∃ scs : List ℕ, scs.length = l.length ∧
        res = (List.zipWith Pipe.update l scs).filter (fun p => !p.offscreen) ++ suf ∧
        sc' = sc + (List.zipWith Pipe.update l scs).countP Pipe.offscreen ∧
        (∀ k ∈ scs, sc ≤ k ∧ k ≤ sc') ∧
        (∀ p ∈ List.zipWith Pipe.update l scs, p.hits birdX bY = false) := by
  induction l using List.reverseRecOn with
  | nil =>
    intro suf sc res sc' h
    simp [pipesLoop] at h
    exact ⟨[], by simp [h.1, h.2]⟩
  | append_singleton l p ih =>
    intro suf sc res sc' h
    have hlen : (l ++ [p]).length = l.length + 1 := by simp
    have hget : (l ++ [p] ++ suf)[l.length]? = some p := by
      rw [List.append_assoc, List.getElem?_append_right (le_refl _)]; simp
    have hset : (l ++ [p] ++ suf).set l.length (p.update sc) = l ++ (p.update sc :: suf) := by
      rw [List.append_assoc, List.set_append_right _ _ (le_refl _)]; simp
    have herase : (l ++ (p.update sc :: suf)).eraseIdx l.length = l ++ suf := by
      rw [List.eraseIdx_append_of_length_le (le_refl _)]; simp
    rw [hlen, pipesLoop, hget] at h
    simp only [hset] at h
    by_cases hh : (p.update sc).hits birdX bY = true
    · simp [hh] at h
    · by_cases ho : (p.update sc).offscreen = true
      · simp only [hh, ho, if_true, if_false, herase] at h
        obtain ⟨scs, h1, h2, h3, h4, h5⟩ := ih suf (sc + 1) res sc' h
        refine ⟨scs ++ [sc], by simp [h1], ?_, ?_, ?_, ?_⟩
        · rw [List.zipWith_append _ _ _ _ _ h1.symm]
          simp [ho, h2]
        · rw [List.zipWith_append _ _ _ _ _ h1.symm]
          simp [ho, h3]; omega
        · intro k hk
          rcases List.mem_append.1 hk with hk | hk
          · have := h4 k hk; omega
          · simp at hk; subst hk; omega
        · rw [List.zipWith_append _ _ _ _ _ h1.symm]
          intro q hq
          rcases List.mem_append.1 hq with hq | hq
          · exact h5 q hq
          · simp at hq; subst hq; simpa using hh
      · simp only [hh, ho, if_false] at h
        obtain ⟨scs, h1, h2, h3, h4, h5⟩ := ih (p.update sc :: suf) sc res sc' h
        refine ⟨scs ++ [sc], by simp [h1], ?_, ?_, ?_, ?_⟩
        · rw [List.zipWith_append _ _ _ _ _ h1.symm]
          simp [ho, h2]
        · rw [List.zipWith_append _ _ _ _ _ h1.symm]
          simp [ho, h3]
        · intro k hk
          rcases List.mem_append.1 hk with hk | hk
          · exact h4 k hk
          · simp at hk; subst hk; omega
        · rw [List.zipWith_append _ _ _ _ _ h1.symm]
          intro q hq
          rcases List.mem_append.1 hq with hq | hq
          · exact h5 q hq
          · simp at hq; subst hq; simpa using hh

theorem pipesLoop_length_le (bY : ℚ) (n : ℕ) :
    ∀ (ps : List Pipe) (sc : ℕ), (pipesLoop bY n ps sc).pipes.length ≤ ps.length := by
  induction n with
  | zero => intro ps sc; simp [pipesLoop, LoopResult.pipes]
  | succ i ih =>
    intro ps sc
    rw [pipesLoop]
    cases hget : ps[i]? with
    | none => simp [LoopResult.pipes]
    | some p =>
      dsimp only
      by_cases hh : (p.update sc).hits birdX bY = true
      · simp [hh, LoopResult.pipes]
      · by_cases ho : (p.update sc).offscreen = true
        · simp only [hh, ho, if_true, if_false]
          refine le_trans (ih _ _) ?_
          exact le_trans (List.length_eraseIdx_le _ _) (by simp)
        · simp only [hh, ho, if_false]
          exact le_trans (ih _ _) (by simp)

theorem frame_notStarted (g : Game) (inp : Input) (hl : g.looping = true)
    (h : g.gameStarted = false) :
    frame g inp =
      if g.frameCount + 1 ≥ g.startDelay then
        { advance g with birdSpeedY := 0, gameStarted := true }
      else { advance g with birdSpeedY := 0 } := by
  unfold frame
  rw [if_pos hl, draw_notStarted (advance g) inp h]
  rfl

theorem frames_notStarted (inps : List Input) :
    ∀ g : Game, g.looping = true → g.gameStarted = false → g.birdSpeedY = 0 →
      g.frameCount + inps.length < g.startDelay →
      inps.foldl frame g = { g with frameCount := g.frameCount + inps.length } := by
  induction inps with
  | nil => intro g _ _ _ _; rfl
  | cons inp inps ih =>
    intro g hl hs hv hlt
    simp only [List.length_cons] at hlt
    have hstep : frame g inp = advance g := by
      rw [frame_notStarted _ _ hl hs, if_neg (by omega)]
      cases g; simp only at hv; subst hv; rfl
    rw [List.foldl_cons, hstep, ih (advance g) hl hs hv (by simp only [advance_frameCount, advance_startDelay]; omega)]
    simp only [advance, List.length_cons, Game.mk.injEq, true_and, and_true]
    omega

theorem reachable_run {g : Game} (hg : Reachable g) (es : List Event)
    (hes : ∀ e ∈ es, e.valid) : Reachable (run g es) := by
  induction es generalizing g with
  | nil => exact hg
  | cons e es ih =>
    simp only [run, List.foldl_cons]
    exact ih (Reachable.step e hg (hes e (List.mem_cons_self _ _)))
      (fun e1 he1 => hes e1 (List.mem_cons_of_mem _ he1))

theorem flight_valid (a m c : ℕ) : ∀ e ∈ flight a m c, e.valid := by
  intro e he
  simp only [flight, List.mem_append, List.mem_replicate] at he
  rcases he with (⟨_, rfl⟩ | ⟨_, rfl⟩) | ⟨_, rfl⟩ <;> decide!

theorem reachable_flight (a m c : ℕ) : Reachable (run start (flight a m c)) :=
  reachable_run (Reachable.setup _ _ _ (by decide!) (by decide!)) _ (flight_valid a m c)

/-! ## Bird motion inside a frame -/

theorem afterBird_advance (g : Game) (inp : Input) :
    (afterBird (advance g) inp).birdY = (afterBird g inp).birdY ∧
    (afterBird (advance g) inp).birdSpeedY = (afterBird g inp).birdSpeedY := by
  unfold afterBird
  simp only [birdVelocity_advance, advance_birdY]
  split <;> exact ⟨rfl, rfl⟩

theorem frame_ceiling (g : Game) (inp : Input) (hl : g.looping = true)
    (hs : g.gameStarted = true) (hy : g.birdY + birdVelocity g inp < 0) :
    frame g inp =
      endGame { advance g with
        birdSpeedY := birdVelocity g inp, birdY := g.birdY + birdVelocity g inp } := by
  unfold frame
  rw [if_pos hl, draw_ceiling (advance g) inp hs hy]
  rfl

theorem frame_running (g : Game) (inp : Input) (hl : g.looping = true)
    (hs : g.gameStarted = true) (hy : ¬ g.birdY + birdVelocity g inp < 0) :
    frame g inp =
      match frameLoop (advance g) inp with
      | .hit pipes score =>
        endGame { afterBird (advance g) inp with pipes := pipes, score := score }
      | .done pipes score =>
        if (g.frameCount + 1) % 100 = 0 then
          { afterBird (advance g) inp with
            pipes := pipes ++ [Pipe.new inp.rSpacing inp.rTop], score := score }
        else { afterBird (advance g) inp with pipes := pipes, score := score } := by
  unfold frame
  rw [if_pos hl, draw_running (advance g) inp hs hy]
  rfl

theorem frameLoop_advance (g : Game) (inp : Input) :
    frameLoop (advance g) inp = frameLoop g inp := by
  unfold frameLoop
  rw [(afterBird_advance g inp).1]
  rfl

theorem frame_looping_of_done (g : Game) (inp : Input) (hl : g.looping = true)
    (hs : g.gameStarted = true) (hy : ¬ g.birdY + birdVelocity g inp < 0)
    (ps : List Pipe) (sc : ℕ) (hd : frameLoop g inp = .done ps sc) :
    (frame g inp).looping = true ∧ (frame g inp).score = sc ∧
    (frame g inp).pipes =
      if (g.frameCount + 1) % 100 = 0 then ps ++ [Pipe.new inp.rSpacing inp.rTop] else ps := by
  have hl2 : (afterBird (advance g) inp).looping = true := by
    unfold afterBird; split <;> exact hl
  rw [frame_running g inp hl hs hy, frameLoop_advance, hd]
  dsimp only
  split <;> exact ⟨hl2, rfl, rfl⟩

theorem frame_ended_of_hit (g : Game) (inp : Input) (hl : g.looping = true)
    (hs : g.gameStarted = true) (hy : ¬ g.birdY + birdVelocity g inp < 0)
    (ps : List Pipe) (sc : ℕ) (hd : frameLoop g inp = .hit ps sc) :
    (frame g inp).looping = false ∧ (frame g inp).pipes = ps := by
  rw [frame_running g inp hl hs hy, frameLoop_advance, hd]
  simp

theorem new_geometry (rSpacing rTop : ℚ) (hs : 0 ≤ rSpacing ∧ rSpacing < 1)
    (ht : 0 ≤ rTop ∧ rTop < 1) :
    ∃ spacing top : ℚ, Pipe.new rSpacing rTop = Pipe.ofGeometry spacing top ∧
      150 ≤ spacing ∧ spacing ≤ 200 ∧
      50 ≤ top ∧ top ≤ height - groundHeight - spacing - 50 := by
  have h1 : random 150 200 rSpacing = rSpacing * 50 + 150 := by
    unfold random; norm_num
  have h2 : random 50 (height - groundHeight - (rSpacing * 50 + 150) - 50) rTop
      = rTop * (215 - rSpacing * 50) + 50 := by
    unfold random
    have : ¬ (50 : ℚ) > height - groundHeight - (rSpacing * 50 + 150) - 50 := by
      norm_num [height, groundHeight]; linarith [hs.2]
    rw [if_neg this]
    simp only [height, groundHeight]; ring
  refine ⟨rSpacing * 50 + 150, rTop * (215 - rSpacing * 50) + 50, ?_, ?_, ?_, ?_, ?_⟩
  · unfold Pipe.new; simp only [h1, h2]
  · linarith [hs.1]
  · linarith [hs.2]
  · have : 0 ≤ rTop * (215 - rSpacing * 50) := mul_nonneg ht.1 (by linarith [hs.2])
    linarith
  · have : rTop * (215 - rSpacing * 50) ≤ 1 * (215 - rSpacing * 50) :=
      mul_le_mul_of_nonneg_right (le_of_lt ht.2) (by linarith [hs.2])
    norm_num [height, groundHeight]; linarith

theorem foldl_update_fields (scores : List ℕ) :
    ∀ p : Pipe, (scores.foldl Pipe.update p).top = p.top ∧
      (scores.foldl Pipe.update p).spacing = p.spacing ∧
      (scores.foldl Pipe.update p).bottom = p.bottom ∧
      (scores.foldl Pipe.update p).w = p.w := by
  induction scores with
  | nil => intro p; simp
  | cons k ks ih =>
    intro p
    rw [List.foldl_cons]
    obtain ⟨h1, h2, h3, h4⟩ := ih (p.update k)
    exact ⟨h1, h2, h3, h4⟩

/-! ## The claims -/

/-! ### C1 -/

/-- C1 as stated fails: for a pipe with left edge `x = 50` and `top = 100`, the
point `(50, 50)` lies on the left edge and above the gap, so it satisfies the
claimed condition `x ≤ bx < x + w ∧ by < top`, but `Pipe.hits` returns false. -/
theorem C1_left_edge_counterexample :
    Pipe.hits { Pipe.ofGeometry 190 100 with x := 50 } 50 50 = false ∧
    ((({ Pipe.ofGeometry 190 100 with x := 50 } : Pipe).x ≤ 50 ∧
        (50 : ℚ) < ({ Pipe.ofGeometry 190 100 with x := 50 } : Pipe).x +
          ({ Pipe.ofGeometry 190 100 with x := 50 } : Pipe).w) ∧
      ((50 : ℚ) < ({ Pipe.ofGeometry 190 100 with x := 50 } : Pipe).top ∨
        (50 : ℚ) > 600 - 135 - ({ Pipe.ofGeometry 190 100 with x := 50 } : Pipe).bottom)) := by
  refine ⟨by decide!, ⟨by decide!, by decide!⟩, Or.inl (by decide!)⟩

/-- C1 (amended): `Pipe.hits(bx, by)` is true exactly when `x < bx < x + w`
and (`by < top` or `by > height - groundHeight - bottom`), with
`height = 600` and `groundHeight = 135`; neither the left edge `bx = x` nor
the right edge `bx = x + w` is inside the hit span. -/
theorem C1_hits_open_span (p : Pipe) (bx bY : ℚ) :
    (height = 600 ∧ groundHeight = 135) ∧
    (p.hits bx bY = true ↔
      (p.x < bx ∧ bx < p.x + p.w) ∧ (bY < p.top ∨ bY > 600 - 135 - p.bottom)) ∧
    p.hits p.x bY = false ∧ p.hits (p.x + p.w) bY = false := by
  refine ⟨⟨rfl, rfl⟩, ?_, ?_, ?_⟩
  · rw [hits_iff]; simp [height, groundHeight]
  · cases h : p.hits p.x bY
    · rfl
    · rw [hits_iff] at h; exact absurd h.1.1 (lt_irrefl _)
  · cases h : p.hits (p.x + p.w) bY
    · rfl
    · rw [hits_iff] at h; exact absurd h.1.2 (lt_irrefl _)

/-! ### C2 -/

/-- C2 as stated fails: in the initial round the frame with `frameCount = 100`
falls in the start delay (`gameStarted` is still false) and appends no pipe;
the list still holds only the pipe `setup()` pushed. -/
theorem C2_frame100_counterexample :
    Reachable (run start (flight 99 0 0)) ∧
    (frame (run start (flight 99 0 0)) quiet).frameCount = 100 ∧
    (frame (run start (flight 99 0 0)) quiet).pipes = (run start (flight 99 0 0)).pipes ∧
    (frame (run start (flight 99 0 0)) quiet).pipes.length = 1 ∧
    ¬ Ended (frame (run start (flight 99 0 0)) quiet) := by
  refine ⟨reachable_flight 99 0 0, ?_, ?_, ?_, ?_⟩
  · decide!
  · decide!
  · decide!
  · unfold Ended; decide!

/-- C2 (amended): a frame appends a pipe exactly when the round is Running, the
frame does not end the round, and the global `frameCount` of the frame (which
a restart does not reset) is a multiple of 100; then exactly one pipe is
appended, at the end of the list the obstacle loop left. No pipe is appended
while the round is NotStarted, nor in a frame that ends the round. -/
theorem C2_spawn_cadence (g : Game) (inp : Input) (hl : g.looping = true) :
    (g.gameStarted = false → (frame g inp).pipes = g.pipes) ∧
    (g.gameStarted = true → Ended (frame g inp) →
      (frame g inp).pipes.length ≤ g.pipes.length) ∧
    (g.gameStarted = true → ¬ Ended (frame g inp) →
      (frame g inp).pipes =
        if (g.frameCount + 1) % 100 = 0 then
          (frameLoop g inp).pipes ++ [Pipe.new inp.rSpacing inp.rTop]
        else (frameLoop g inp).pipes) := by
  refine ⟨?_, ?_, ?_⟩
  · intro hs
    rw [frame_notStarted g inp hl hs]
    split <;> rfl
  · intro hs hend
    by_cases hy : g.birdY + birdVelocity g inp < 0
    · rw [frame_ceiling g inp hl hs hy]; simp
    · cases hd : frameLoop g inp with
      | hit ps sc =>
        rw [(frame_ended_of_hit g inp hl hs hy ps sc hd).2]
        have := pipesLoop_length_le (afterBird g inp).birdY g.pipes.length g.pipes g.score
        unfold frameLoop at hd
        rw [hd] at this
        exact this
      | done ps sc =>
        have := (frame_looping_of_done g inp hl hs hy ps sc hd).1
        unfold Ended at hend
        rw [hend] at this
        exact absurd this (by decide)
  · intro hs hne
    have hl2 : (frame g inp).looping = true := by
      unfold Ended at hne; simpa using hne
    by_cases hy : g.birdY + birdVelocity g inp < 0
    · rw [frame_ceiling g inp hl hs hy] at hl2; simp at hl2
    · cases hd : frameLoop g inp with
      | hit ps sc =>
        rw [(frame_ended_of_hit g inp hl hs hy ps sc hd).1] at hl2
        exact absurd hl2 (by decide)
      | done ps sc =>
        rw [(frame_looping_of_done g inp hl hs hy ps sc hd).2.2]
        rfl

/-- Witness of C2 (amended): frame 200 of the initial round is Running, does not
end the round, and appends one pipe. -/
theorem C2_spawn_cadence_witness :
    (run start (flight 199 0 0)).looping = true ∧
    (run start (flight 199 0 0)).gameStarted = true ∧
    ¬ Ended (frame (run start (flight 199 0 0)) quiet) ∧
    (frame (run start (flight 199 0 0)) quiet).pipes =
      if ((run start (flight 199 0 0)).frameCount + 1) % 100 = 0 then
        (frameLoop (run start (flight 199 0 0)) quiet).pipes ++
          [Pipe.new quiet.rSpacing quiet.rTop]
      else (frameLoop (run start (flight 199 0 0)) quiet).pipes :=
  ⟨by decide!, by decide!, by unfold Ended; decide!,
    (C2_spawn_cadence (run start (flight 199 0 0)) quiet (by decide!)).2.2 (by decide!)
      (by unfold Ended; decide!)⟩

/-! ### C3 -/

/-- C3: when the obstacle loop of a Running frame runs to its end without a
collision, every pipe of the list was updated exactly once (pipe `i` by
`Pipe.update` at a score between the score before and after the loop), the
list left is exactly the updated pipes whose `x` is not below `-w`, in their
original order, every updated pipe with `x < -w` is gone, and the score grew
by the number of removed pipes. -/
theorem C3_loop_removes_offscreen (bY : ℚ) (pipes : List Pipe) (score : ℕ)
    (left : List Pipe) (score1 : ℕ)
    (h : pipesLoop bY pipes.length pipes score = .done left score1) :
    ∃ scores : List ℕ, scores.length = pipes.length ∧
      (List.zipWith Pipe.update pipes scores).length = pipes.length ∧
      (∀ k ∈ scores, score ≤ k ∧ k ≤ score1) ∧
      left = (List.zipWith Pipe.update pipes scores).filter (fun p => decide (¬ p.x < -p.w)) ∧
      (∀ p ∈ List.zipWith Pipe.update pipes scores, p.x < -p.w → p ∉ left) ∧
      score1 = score +
        (List.zipWith Pipe.update pipes scores).countP (fun p => decide (p.x < -p.w)) := by
  have h0 : pipesLoop bY pipes.length (pipes ++ []) score = .done left score1 := by
    simpa using h
  obtain ⟨scs, h1, h2, h3, h4, _⟩ := pipesLoop_append bY pipes [] score left score1 h0
  have hf : (fun p : Pipe => !p.offscreen) = (fun p : Pipe => decide (¬ p.x < -p.w)) := by
    funext p; simp only [Pipe.offscreen]
    by_cases hx : p.x < -p.w <;> simp [hx]
  have hc : Pipe.offscreen = (fun p : Pipe => decide (p.x < -p.w)) := rfl
  rw [hf, List.append_nil] at h2
  rw [hc] at h3
  refine ⟨scs, h1, by simp [h1], h4, h2, ?_, h3⟩
  intro p _ hx hp
  rw [h2, List.mem_filter] at hp
  simp at hp
  exact absurd hx (not_lt.2 hp.2)

/-- Witness of C3: two pipes at score 0, the first one step from leaving the
screen; it is removed, the other stays, the score becomes 1. -/
theorem C3_loop_removes_offscreen_witness :
    ∃ scores : List ℕ, scores.length = 2 ∧
      (List.zipWith Pipe.update
        [{ Pipe.ofGeometry 190 100 with x := -40 }, Pipe.ofGeometry 190 100] scores).length
        = [{ Pipe.ofGeometry 190 100 with x := -40 }, Pipe.ofGeometry 190 100].length ∧
      (∀ k ∈ scores, 0 ≤ k ∧ k ≤ 1) ∧
      [(Pipe.ofGeometry 190 100).update 0] = (List.zipWith Pipe.update
        [{ Pipe.ofGeometry 190 100 with x := -40 }, Pipe.ofGeometry 190 100] scores).filter
          (fun p => decide (¬ p.x < -p.w)) ∧
      (∀ p ∈ List.zipWith Pipe.update
        [{ Pipe.ofGeometry 190 100 with x := -40 }, Pipe.ofGeometry 190 100] scores,
          p.x < -p.w → p ∉ [(Pipe.ofGeometry 190 100).update 0]) ∧
      1 = 0 + (List.zipWith Pipe.update
        [{ Pipe.ofGeometry 190 100 with x := -40 }, Pipe.ofGeometry 190 100] scores).countP
          (fun p => decide (p.x < -p.w)) :=
  C3_loop_removes_offscreen 255
    [{ Pipe.ofGeometry 190 100 with x := -40 }, Pipe.ofGeometry 190 100] 0
    [(Pipe.ofGeometry 190 100).update 0] 1 (by decide!)

/-! ### C4 -/

/-- C7: for every `spacing` in `[150, 200]` the range
`[50, height - groundHeight - spacing - 50]` of `top` is non-empty (its upper
bound is at least 50, so not negative), and for every `top` in it the pipe
built has `top + spacing + bottom = height - groundHeight = 465`, `top ≥ 50`,
`bottom ≥ 50`, with the gap inside `[0, 465]`; `Pipe.update` keeps `top`,
`spacing`, `bottom` and `w`, so this holds after any number of updates. -/
theorem C7_gap_geometry (spacing : ℚ) (hlo : 150 ≤ spacing) (hhi : spacing ≤ 200) :
    50 ≤ height - groundHeight - spacing - 50 ∧
    0 ≤ height - groundHeight - spacing - 50 ∧
    height - groundHeight = 465 ∧
    ∀ top : ℚ, 50 ≤ top → top ≤ height - groundHeight - spacing - 50 →
      (Pipe.ofGeometry spacing top).top + (Pipe.ofGeometry spacing top).spacing +
          (Pipe.ofGeometry spacing top).bottom = height - groundHeight ∧
      (Pipe.ofGeometry spacing top).top ≥ 50 ∧
      (Pipe.ofGeometry spacing top).bottom ≥ 50 ∧
      0 ≤ (Pipe.ofGeometry spacing top).top ∧
      (Pipe.ofGeometry spacing top).top <
        (Pipe.ofGeometry spacing top).top + (Pipe.ofGeometry spacing top).spacing ∧
      (Pipe.ofGeometry spacing top).top + (Pipe.ofGeometry spacing top).spacing
        ≤ height - groundHeight ∧
      ∀ (q : Pipe) (score : ℕ),
        (q.update score).top = q.top ∧ (q.update score).spacing = q.spacing ∧
        (q.update score).bottom = q.bottom ∧ (q.update score).w = q.w ∧
        ∀ scores : List ℕ,
          (scores.foldl Pipe.update (Pipe.ofGeometry spacing top)).top +
            (scores.foldl Pipe.update (Pipe.ofGeometry spacing top)).spacing +
            (scores.foldl Pipe.update (Pipe.ofGeometry spacing top)).bottom = 465 ∧
          (scores.foldl Pipe.update (Pipe.ofGeometry spacing top)).top ≥ 50 ∧
          (scores.foldl Pipe.update (Pipe.ofGeometry spacing top)).bottom ≥ 50 := by
  refine ⟨by norm_num [height, groundHeight]; linarith,
    by norm_num [height, groundHeight]; linarith, by norm_num [height, groundHeight], ?_⟩
  intro top ht1 ht2
  have hb : height - groundHeight - (top + spacing) ≥ 50 := by linarith
  refine ⟨by simp [Pipe.ofGeometry], ht1, hb, by simp only [Pipe.ofGeometry]; linarith,
    by simp only [Pipe.ofGeometry]; linarith, by simp only [Pipe.ofGeometry]; linarith, ?_⟩
  intro q score
  refine ⟨rfl, rfl, rfl, rfl, ?_⟩
  intro scores
  obtain ⟨h1, h2, h3, _⟩ := foldl_update_fields scores (Pipe.ofGeometry spacing top)
  rw [h1, h2, h3]
  refine ⟨?_, ht1, hb⟩
  simp only [Pipe.ofGeometry]
  norm_num [height, groundHeight]

/-- Witness of C7 at `spacing = 150`, `top = 100`, after two updates. -/
theorem C7_gap_geometry_witness :
    (150 : ℚ) ≤ 150 ∧ (150 : ℚ) ≤ 200 ∧ (50 : ℚ) ≤ 100 ∧
    (100 : ℚ) ≤ height - groundHeight - 150 - 50 ∧
    ([0, 1].foldl Pipe.update (Pipe.ofGeometry 150 100)).top +
      ([0, 1].foldl Pipe.update (Pipe.ofGeometry 150 100)).spacing +
      ([0, 1].foldl Pipe.update (Pipe.ofGeometry 150 100)).bottom = 465 :=
  ⟨by norm_num, by norm_num, by norm_num, by norm_num [height, groundHeight],
    ((((C7_gap_geometry 150 (by norm_num) (by norm_num)).2.2.2 100 (by norm_num)
      (by norm_num [height, groundHeight])).2.2.2.2.2.2
        (Pipe.ofGeometry 150 100) 0).2.2.2.2 [0, 1]).1⟩

/-! ### C8 -/

/-- C9: `endGame` leaves `highScore = max highScore score`, calls `storeItem`
(and so changes the stored value) exactly when `score > highScore`, leaves
`score` unchanged, and never lowers `highScore`; from `highScore = 10` a round
ending at 7 leaves 10 and a round ending at 15 stores 15. -/
theorem C9_endGame_highScore (g : Game) :
    (endGame g).highScore = max g.highScore g.score ∧
    (endGame g).score = g.score ∧
    (endGame g).writes = (if g.score > g.highScore then g.score :: g.writes else g.writes) ∧
    (endGame g).stored = (if g.score > g.highScore then some g.score else g.stored) ∧
    g.highScore ≤ (endGame g).highScore ∧
    (endGame { g with highScore := 10, score := 7 }).highScore = 10 ∧
    (endGame { g with highScore := 10, score := 7 }).stored = g.stored ∧
    (endGame { g with highScore := 10, score := 15 }).highScore = 15 ∧
    (endGame { g with highScore := 10, score := 15 }).stored = some 15 := by
  unfold endGame
  by_cases h : g.score > g.highScore
  · simp [h, le_of_lt h]
  · simp [h, le_of_not_lt h]

/-! ### C10 -/

/-- C10: `resetGame` at frame `f` gives `score = 0`, no pipes,
`birdY = height / 2 = 300`, `birdSpeedY = 0`, `gameStarted = false`,
`startDelay = f + 120`, the same `highScore`; each of the next 119 frames only
advances `frameCount` (the bird stays at 300 with zero velocity, no pipe
appears or moves), and the 120th, the first with `frameCount ≥ f + 120`, sets
`gameStarted`. -/
theorem C10_resetGame (g : Game) :
    (resetGame g).score = 0 ∧ (resetGame g).pipes = [] ∧
    (resetGame g).birdY = height / 2 ∧ height / 2 = 300 ∧
    (resetGame g).birdSpeedY = 0 ∧ (resetGame g).gameStarted = false ∧
    (resetGame g).startDelay = g.frameCount + 120 ∧
    (resetGame g).highScore = g.highScore ∧
    (∀ inps : List Input, inps.length < 120 →
      inps.foldl frame (resetGame g) =
        { resetGame g with frameCount := g.frameCount + inps.length }) ∧
    (∀ inps : List Input, inps.length = 120 →
      inps.foldl frame (resetGame g) =
        { resetGame g with frameCount := g.frameCount + 120, gameStarted := true }) := by
  have key : ∀ inps : List Input, inps.length < 120 →
      inps.foldl frame (resetGame g) =
        { resetGame g with frameCount := g.frameCount + inps.length } := by
    intro inps hlen
    exact frames_notStarted inps (resetGame g) rfl rfl rfl
      (by simp only [resetGame]; omega)
  refine ⟨rfl, rfl, rfl, by norm_num [height], rfl, rfl, rfl, rfl, key, ?_⟩
  intro inps hlen
  rcases List.eq_nil_or_concat inps with hnil | ⟨init, last, rfl⟩
  · subst hnil; exact absurd hlen (by decide)
  · rw [List.concat_eq_append] at hlen ⊢
    simp only [List.length_append, List.length_singleton] at hlen
    rw [List.foldl_append, key init (by omega)]
    simp only [List.foldl_cons, List.foldl_nil]
    rw [frame_notStarted _ _ rfl rfl, if_pos (by simp only [resetGame]; omega)]
    simp only [advance, resetGame, Game.mk.injEq, true_and, and_true]
    omega

/-- Witness of C10: five silent frames after a restart of the initial state
leave the restarted state with `frameCount` advanced by 5. -/
theorem C10_resetGame_witness :
    (List.replicate 5 quiet).length < 120 ∧
    (List.replicate 5 quiet).foldl frame (resetGame start) =
      { resetGame start with frameCount := start.frameCount + (List.replicate 5 quiet).length } :=
  ⟨by decide, (C10_resetGame start).2.2.2.2.2.2.2.2.1 (List.replicate 5 quiet) (by decide)⟩

end YappyBird
